import Mathlib

/-!
Shallow embedding of the UnsafeGuaranteed peephole pass
(UnsafeGuaranteedPeephole.cpp) over a small SIL-like IR.

Values and instructions are identified by natural numbers; an instruction's
`id` doubles as the id of the value it defines, so a value `v` is defined by
an instruction exactly when some instruction in the function has `id = v`.
Reference-count identity (`RCIdentityFunctionInfo::getRCIdentityRoot`) is an
external whole-function oracle, modelled as a parameter `root : Nat → Nat`
mapping each value to its identity root.
-/

namespace UGP

/-- Instruction operation kinds relevant to the pass, mirroring the
`isa<...>` tests in UnsafeGuaranteedPeephole.cpp.  `TupleExtract n` is the
single-result extraction instruction claiming logical slot `n` of a
multi-result producer; `Other b` is any other instruction, with `b`
recording whether it may have side effects. -/
inductive Kind : Type
  | StrongRetain : Kind
  | RetainValue : Kind
  | StrongRelease : Kind
  | ReleaseValue : Kind
  | UnsafeGuaranteed : Kind
  | UnsafeGuaranteedEnd : Kind
  | TupleExtract : Nat → Kind
  | Apply : Kind
  | PartialApply : Kind
  | DebugValue : Kind
  | Other : Bool → Kind
deriving DecidableEq, Repr

/-- An instruction: its id (also the id of the value it defines) and its
operand value ids. -/
structure Inst where
  id : Nat
  kind : Kind
  opds : List Nat
deriving DecidableEq, Repr

/-- Operand 0 of an instruction (`getOperand(0)` in the source). -/
def opd0 (c : Inst) : Nat := c.opds.headD 0

/-- The increment-operations: `isa<StrongRetainInst> || isa<RetainValueInst>`. -/
def isIncrement (c : Inst) : Bool :=
  match c.kind with
  | Kind.StrongRetain => true
  | Kind.RetainValue => true
  | _ => false

/-- The decrement-operations: `isa<StrongReleaseInst> || isa<ReleaseValueInst>`. -/
def isDecrement (c : Inst) : Bool :=
  match c.kind with
  | Kind.StrongRelease => true
  | Kind.ReleaseValue => true
  | _ => false

/-- Debug-reference instruction test, `isa<DebugValueInst>`. -/
def isDebugValue (c : Inst) : Bool :=
  match c.kind with
  | Kind.DebugValue => true
  | _ => false

/-- Call-like instruction test, `isa<ApplyInst> || isa<PartialApplyInst>`. -/
def isApplyLike (c : Inst) : Bool :=
  match c.kind with
  | Kind.Apply => true
  | Kind.PartialApply => true
  | _ => false

/-- Side-effect query (`mayHaveSideEffects`): reference-count operations,
the guarantee markers and calls may have side effects, extractions and
debug references do not, and other instructions carry an explicit flag. -/
def Inst.mayHaveSideEffects (c : Inst) : Bool :=
  match c.kind with
  | Kind.StrongRetain => true
  | Kind.RetainValue => true
  | Kind.StrongRelease => true
  | Kind.ReleaseValue => true
  | Kind.UnsafeGuaranteed => true
  | Kind.UnsafeGuaranteedEnd => true
  | Kind.TupleExtract _ => false
  | Kind.Apply => true
  | Kind.PartialApply => true
  | Kind.DebugValue => false
  | Kind.Other b => b

/-- A basic block: its instructions in layout order and the indices of its
successor blocks (the control-flow graph edges of the terminator). -/
structure Block where
  insts : List Inst
  succs : List Nat
deriving DecidableEq, Repr

/-- A function: its basic blocks in layout order; block 0 is the entry. -/
structure Fn where
  blocks : List Block
deriving DecidableEq, Repr

/-- The instruction list of block `b` of `f` (empty when out of range). -/
def instsAt (f : Fn) (b : Nat) : List Inst :=
  ((f.blocks.get? b).map Block.insts).getD []

/-- The successor list of block `b` of `f`. -/
def succsAt (f : Fn) (b : Nat) : List Nat :=
  ((f.blocks.get? b).map Block.succs).getD []

/-- All instructions of a function, in block layout order. -/
def allInsts (f : Fn) : List Inst := (f.blocks.map Block.insts).flatten

/-- Boolean membership of a value id in an operand list. -/
def usesValue (v : Nat) : List Nat → Bool
  | [] => false
  | a :: as => if a = v then true else usesValue v as

/-- Index of the instruction with id `iid` inside an instruction list. -/
def idIndexIn : List Inst → Nat → Option Nat
  | [], _ => none
  | c :: cs, iid =>
    if c.id = iid then some 0 else (idIndexIn cs iid).map (fun k => k + 1)

/-- Auxiliary scan for `findInstPos`. -/
def findInstPosAux (iid : Nat) : List Block → Nat → Option (Nat × Nat)
  | [], _ => none
  | bl :: bls, b =>
    match idIndexIn bl.insts iid with
    | some k => some (b, k)
    | none => findInstPosAux iid bls (b + 1)

/-- Position (block index, instruction index) of the instruction with id
`iid` in `f`. -/
def findInstPos (f : Fn) (iid : Nat) : Option (Nat × Nat) :=
  findInstPosAux iid f.blocks 0

/-- Whether value `v` is defined by an instruction of `f`. -/
def isInstOf (f : Fn) (v : Nat) : Bool := (findInstPos f v).isSome

/-- The defining instruction of a value (`SILValue::getDefiningInstruction`):
the instruction with the same id when there is one, `none` for function
arguments. -/
def definingInstruction (f : Fn) (v : Nat) : Option Nat :=
  if isInstOf f v then some v else none

/-- Erase the instruction with id `iid` from its block
(`SILInstruction::eraseFromParent`). -/
def eraseInst (f : Fn) (iid : Nat) : Fn :=
  ⟨f.blocks.map (fun bl =>
    ⟨bl.insts.filter (fun c => if c.id = iid then false else true), bl.succs⟩)⟩

/-- Erase a batch of instructions, in order. -/
def eraseInsts (f : Fn) (ids : List Nat) : Fn := ids.foldl eraseInst f

/-- Replace all uses of value `oldV` with value `newV`
(`replaceAllUsesWith`). -/
def rauw (f : Fn) (oldV newV : Nat) : Fn :=
  ⟨f.blocks.map (fun bl =>
    ⟨bl.insts.map (fun c =>
      ⟨c.id, c.kind, c.opds.map (fun v => if v = oldV then newV else v)⟩),
     bl.succs⟩)⟩

/-- Modelled from the spec: `deleteAllDebugUses` (DebugUtils, outside the
provided sources) removes every debug-only reference to a value: all
debug-reference instructions using `v` are erased. -/
def deleteAllDebugUses (f : Fn) (v : Nat) : Fn :=
  ⟨f.blocks.map (fun bl =>
    ⟨bl.insts.filter (fun c =>
       if isDebugValue c = true ∧ usesValue v c.opds = true then false
       else true),
     bl.succs⟩)⟩

/-- Lookup in the retain-tracker mapping (`llvm::DenseMap` keyed by the
identity-root value). -/
def lookupRoot : List (Nat × Nat) → Nat → Option Nat
  | [], _ => none
  | kv :: m, r => if kv.1 = r then some kv.2 else lookupRoot m r

/-- Overwriting insertion into the retain-tracker mapping
(`LastRetain[root] = CurInst`). -/
def updateMap : List (Nat × Nat) → Nat → Nat → List (Nat × Nat)
  | [], k, v => [(k, v)]
  | kv :: m, k, v => if kv.1 = k then (k, v) :: m else kv :: updateMap m k v

/-- The retain tracker step (lines 115-119 of the pass): an
increment-operation records `root(operand) → instruction`, overwriting any
prior entry for that root; any other instruction leaves the mapping alone. -/
def trackRetain (root : Nat → Nat) (m : List (Nat × Nat)) (c : Inst) :
    List (Nat × Nat) :=
  if isIncrement c = true then updateMap m (root (opd0 c)) c.id else m

/-- Modelled from the spec: `getSingleUnsafeGuaranteedValueResult`
(InstOptUtils, outside the provided sources).  Resolves the begin-marker's
two logical results via single-result extraction instructions attached to
it: the unique extraction claiming slot 0 is the value-result and the
unique extraction claiming slot 1 is the continuation token; if either
slot is claimed by no extraction or by several, the resolution fails. -/
def getSingleUnsafeGuaranteedValueResult (f : Fn) (gid : Nat) :
    Option (Nat × Nat) :=
  let ex0 := (allInsts f).filter (fun c =>
    if c.kind = Kind.TupleExtract 0 ∧ c.opds = [gid] then true else false)
  let ex1 := (allInsts f).filter (fun c =>
    if c.kind = Kind.TupleExtract 1 ∧ c.opds = [gid] then true else false)
  match ex0, ex1 with
  | [v], [t] => some (v.id, t.id)
  | _, _ => none

/-- The instructions of `f` using value `v` as an operand. -/
def usersOf (f : Fn) (v : Nat) : List Inst :=
  (allInsts f).filter (fun c => usesValue v c.opds)

/-- Modelled from the spec: `getUnsafeGuaranteedEndUser` (InstOptUtils,
outside the provided sources).  Finds the unique end-guarantee intrinsic
consuming the continuation token; zero consumers or more than one consumer
mean no match. -/
def getUnsafeGuaranteedEndUser (f : Fn) (tok : Nat) : Option Nat :=
  match usersOf f tok with
  | [e] => if e.kind = Kind.UnsafeGuaranteedEnd then some e.id else none
  | _ => none

/-- Modelled from the spec: one direction of the decrement search of
`findReleaseToMatchUnsafeGuaranteedValue` (ARCAnalysis, outside the
provided sources).  Walks the given instruction sequence looking for the
first decrement-operation; it matches when its operand's identity root is
`rootX`, and the search gives up at any other side-effecting
non-debug-reference instruction. -/
def findReleaseScan (root : Nat → Nat) (rootX : Nat) : List Inst → Option Nat
  | [] => none
  | c :: cs =>
    if isDecrement c = true then
      (if root (opd0 c) = rootX then some c.id else none)
    else if c.mayHaveSideEffects = true ∧ isDebugValue c = false then none
    else findReleaseScan root rootX cs

/-- Modelled from the spec: `findReleaseToMatchUnsafeGuaranteedValue`
(ARCAnalysis, outside the provided sources).  Searches for the matching
decrement first immediately after the end-marker within its block, then,
if absent, immediately before the end-marker within its block, matching by
identity root equal to the root of the begin-marker's operand. -/
def findReleaseToMatchUnsafeGuaranteedValue (root : Nat → Nat) (f : Fn)
    (endId rootX : Nat) : Option Nat :=
  match findInstPos f endId with
  | none => none
  | some (b, k) =>
    let insts := instsAt f b
    match findReleaseScan root rootX (insts.drop (k + 1)) with
    | some r => some r
    | none => findReleaseScan root rootX ((insts.take k).reverse)

/-- The successor table of a function: one successor list per block. -/
def succsTable (f : Fn) : List (List Nat) := f.blocks.map Block.succs

/-- One expansion round of block-level reachability: the blocks reached by
one control-flow edge from the given frontier, never traversing out of the
`avoid` block. -/
def frontierStep (ss : List (List Nat)) (avoid : Nat) (fr : List Nat) :
    List Nat :=
  ((fr.filter (fun b => if b = avoid then false else true)).map
    (fun b => (ss.get? b).getD [])).flatten

/-- All blocks reachable from the given frontier by at most `n` expansion
rounds avoiding `avoid` (every reachable block is reached by a simple path,
so one round per block of the function suffices). -/
def reachClosure (ss : List (List Nat)) (avoid : Nat) :
    Nat → List Nat → List Nat
  | 0, fr => fr
  | n + 1, fr => fr ++ reachClosure ss avoid n (frontierStep ss avoid fr)

/-- A block with no successors is an exit block. -/
def isExitBlock (f : Fn) (b : Nat) : Bool := (succsAt f b).isEmpty

/-- Whether some control-flow path from block `src` reaches an exit block
without ever passing through block `avoid`. -/
def canReachExitAvoiding (f : Fn) (src avoid : Nat) : Bool :=
  ((reachClosure (succsTable f) avoid f.blocks.length [src]).filter
      (fun b => if b = avoid then false else true)).any
    (fun b => isExitBlock f b)

/-- Modelled from the spec: the post-dominance oracle
(`PostDominanceInfo::properlyDominates`, outside the provided sources).
Instruction `a` properly post-dominates instruction `b` when every
control-flow path from `b` to the function's exit passes through `a`:
within one block this means `a` comes strictly after `b`; across blocks it
means no path from `b`'s block reaches an exit while avoiding `a`'s
block. -/
def properlyPostDominates (f : Fn) (a b : Nat) : Bool :=
  match findInstPos f a, findInstPos f b with
  | some (ba, ia), some (bb, ib) =>
    if ba = bb then decide (ib < ia)
    else ! canReachExitAvoiding f bb ba
  | _, _ => false

/-- The loop body of `tryRemoveRetainReleasePairsBetween` (lines 64-91):
given the current candidate nested retain and the deletion queue, process
one instruction of the protected region. -/
def nestedStep (root : Nat → Nat) (f : Fn) (gId retainId releaseId : Nat)
    (cand : Option Nat) (dels : List Nat) (cur : Inst) :
    Option Nat × List Nat :=
  if ¬ cur.id = retainId ∧ isIncrement cur = true ∧
      definingInstruction f (root (opd0 cur)) = some gId then
    (some cur.id, dels)
  else if cur.mayHaveSideEffects = false then (cand, dels)
  else if isDebugValue cur = true then (cand, dels)
  else if isApplyLike cur = true then (cand, dels)
  else
    match cand with
    | some c0 =>
      if ¬ cur.id = releaseId ∧ isDecrement cur = true ∧
          definingInstruction f (root (opd0 cur)) = some gId then
        (none, dels ++ [c0, cur.id])
      else (none, dels)
    | none => (none, dels)

/-- The scan loop of `tryRemoveRetainReleasePairsBetween` (lines 61-92):
iterate from the begin-marker until the end of the block, the outer
release, or the end-marker, collecting the nested pairs to delete. -/
def nestedLoop (root : Nat → Nat) (f : Fn) (gId retainId releaseId endId : Nat)
    (insts : List Inst) : Nat → Nat → Option Nat → List Nat → List Nat
  | 0, _, _, dels => dels
  | fuel + 1, j, cand, dels =>
    match insts.get? j with
    | none => dels
    | some cur =>
      if cur.id = releaseId ∨ cur.id = endId then dels
      else
        let s := nestedStep root f gId retainId releaseId cand dels cur
        nestedLoop root f gId retainId releaseId endId insts fuel (j + 1) s.1 s.2

/-- `tryRemoveRetainReleasePairsBetween` (lines 49-95): if the begin-marker,
end-marker, outer retain and outer release all lie in one block, scan the
protected region for fully nested retain/release pairs of the guaranteed
value and erase them; otherwise do nothing. -/
def tryRemoveRetainReleasePairsBetween (root : Nat → Nat) (f : Fn)
    (gId retainId releaseId endId : Nat) : Fn :=
  match findInstPos f gId, findInstPos f endId, findInstPos f retainId,
      findInstPos f releaseId with
  | some (bg, ig), some (be, _), some (br, _), some (bl, _) =>
    if be = bg ∧ br = bg ∧ bl = bg then
      let insts := instsAt f bg
      eraseInsts f
        (nestedLoop root f gId retainId releaseId endId insts
          (insts.length + 1) ig none [])
    else f
  | _, _, _, _ => f

/-- The forward walk of lines 138-144: starting at index `j`, advance while
the instruction is an increment-operation, has no side effects, or is a
debug reference, stopping at the current instruction's index `iCur`, at a
disqualifying instruction, or at the block's end. -/
def walkIdx (insts : List Inst) (iCur : Nat) : Nat → Nat → Nat
  | 0, j => j
  | fuel + 1, j =>
    match insts.get? j with
    | none => j
    | some c =>
      if j = iCur then j
      else if isIncrement c = true ∨ c.mayHaveSideEffects = false ∨
          isDebugValue c = true then
        walkIdx insts iCur fuel (j + 1)
      else j

/-- The marker-matching stage (lines 128-175): look up the tracked retain
for the operand's identity root, check the forward walk from it lands
exactly on the begin-marker, resolve the marker's two extraction results,
and find the unique end-marker consuming the token.  Returns the tracked
retain's index and id, the value-result, the token and the end-marker.
A tracked retain no longer present in the block (possible only through a
stale mapping entry left by an earlier rewrite, where the original code
would walk from an erased instruction) is treated as a failed match. -/
def matchMarkers (root : Nat → Nat) (f : Fn) (insts : List Inst) (i : Nat)
    (cur : Inst) (m : List (Nat × Nat)) :
    Option (Nat × Nat × Nat × Nat × Nat) :=
  match lookupRoot m (root (opd0 cur)) with
  | none => none
  | some retainId =>
    match idIndexIn insts retainId with
    | none => none
    | some rIdx =>
      if walkIdx insts i (insts.length + 1) (rIdx + 1) = i then
        match getSingleUnsafeGuaranteedValueResult f cur.id with
        | none => none
        | some (v, t) =>
          match getUnsafeGuaranteedEndUser f t with
          | none => none
          | some e => some (rIdx, retainId, v, t, e)
      else none

/-- The full candidate check (lines 128-195): marker matching, then the
post-dominance verification, then the matching-decrement search. -/
def findMatch (root : Nat → Nat) (f : Fn) (insts : List Inst) (i : Nat)
    (cur : Inst) (m : List (Nat × Nat)) :
    Option (Nat × Nat × Nat × Nat × Nat × Nat) :=
  match matchMarkers root f insts i cur m with
  | none => none
  | some (rIdx, retainId, v, t, e) =>
    if properlyPostDominates f e cur.id = true then
      match findReleaseToMatchUnsafeGuaranteedValue root f e
          (root (opd0 cur)) with
      | none => none
      | some rel => some (rIdx, retainId, v, t, e, rel)
    else none

/-- The region mutation (lines 197-223): record where to resume (the
instruction before the outer retain, or the block start when the retain is
first), prune nested pairs, erase the outer retain, release and
end-marker, drop debug references to the marker's results, rewrite the
remaining uses of the value-result and the marker to the original operand,
and erase the extractions and the marker.  Returns the mutated function
and the id of the instruction at which to resume (`none` meaning the block
start). -/
def applyTransform (root : Nat → Nat) (f : Fn) (insts : List Inst)
    (cur : Inst) (rIdx retainId v t e rel : Nat) : Fn × Option Nat :=
  let savedPrev : Option Nat :=
    if rIdx = 0 then none else (insts.get? (rIdx - 1)).map Inst.id
  let f1 := tryRemoveRetainReleasePairsBetween root f cur.id retainId rel e
  let f2 := eraseInst f1 retainId
  let f3 := eraseInst f2 rel
  let f4 := eraseInst f3 e
  let f5 := deleteAllDebugUses f4 v
  let f6 := deleteAllDebugUses f5 t
  let f7 := deleteAllDebugUses f6 cur.id
  let f8 := rauw f7 v (opd0 cur)
  let f9 := eraseInst f8 v
  let f10 := eraseInst f9 t
  let f11 := rauw f10 cur.id (opd0 cur)
  let f12 := eraseInst f11 cur.id
  (f12, savedPrev)

/-- The scan-resumption position (lines 197-202 and 225-226): the index of
the remembered instruction in the mutated block, or index 0 when the
erased retain was the block's first instruction. -/
def resumeIndex (f : Fn) (b : Nat) (savedPrev : Option Nat) : Nat :=
  match savedPrev with
  | none => 0
  | some pid => (idIndexIn (instsAt f b) pid).getD (instsAt f b).length

/-- The per-block scan loop (lines 109-229): track retains, recognize
begin-guarantee builtins, and on a full match mutate the region and resume
before the erased retain.  `fuel` bounds the number of iterations; the
pass supplies enough fuel for the loop to run to completion. -/
def scanList (root : Nat → Nat) :
    Nat → Fn → Nat → Nat → List (Nat × Nat) → Bool → Fn × Bool
  | 0, f, _, _, _, c => (f, c)
  | fuel + 1, f, b, i, m, c =>
    match (instsAt f b).get? i with
    | none => (f, c)
    | some cur =>
      if isIncrement cur = true then
        scanList root fuel f b (i + 1) (trackRetain root m cur) c
      else if cur.kind = Kind.UnsafeGuaranteed then
        match findMatch root f (instsAt f b) i cur m with
        | none => scanList root fuel f b (i + 1) m c
        | some (rIdx, retainId, v, t, e, rel) =>
          let p := applyTransform root f (instsAt f b) cur rIdx retainId v t e rel
          scanList root fuel p.1 b (resumeIndex p.1 b p.2) m true
      else scanList root fuel f b (i + 1) m c

/-- The per-function loop of `removeGuaranteedRetainReleasePairs`
(line 108): process each block in order with a fresh retain tracker,
threading the mutated function and the changed flag. -/
def runBlocks (root : Nat → Nat) (fuel : Nat) :
    Nat → Fn → Nat → Bool → Fn × Bool
  | 0, f, _, c => (f, c)
  | n + 1, f, b, c =>
    let p := scanList root fuel f b 0 [] c
    runBlocks root fuel n p.1 (b + 1) p.2

/-- Total number of instructions in a function. -/
def numInsts (f : Fn) : Nat := (allInsts f).length

/-- A fuel bound large enough for every block scan: each rewrite erases
several instructions and rewinds at most one block length, so the scan of
one block takes fewer than the square of `numInsts + 2` iterations. -/
def passFuel (f : Fn) : Nat := (numInsts f + 2) * (numInsts f + 2)

/-- `removeGuaranteedRetainReleasePairs` (lines 99-232): the entry point of
the pass on one function.  Returns the transformed function and whether
any change was made (the invalidation signal reported by the pass). -/
def removeGuaranteedRetainReleasePairs (root : Nat → Nat) (f : Fn) :
    Fn × Bool :=
  runBlocks root (passFuel f) f.blocks.length f 0 false

/-- Specification-side description of the retain tracker: the most recent
increment-operation for root `r` in an instruction sequence, if any. -/
def lastIncrFor (root : Nat → Nat) (r : Nat) : List Inst → Option Nat
  | [] => none
  | c :: cs =>
    match lastIncrFor root r cs with
    | some i => some i
    | none =>
      if isIncrement c = true ∧ root (opd0 c) = r then some c.id else none

/-!
Concrete scenario families.  Instruction ids are canonical labels
(10, 11, ...); the operand `x` of the protected value, and where relevant a
second value `y`, stay parameters, as does the reference-identity oracle
whenever the scenario's behaviour does not depend on it.
-/

/-- Scenario A: a single block
`increment(x); G = begin(x); extract0; extract1; call(G.value); end(G.token);
decrement(x)`. -/
def scenarioA (x : Nat) : Fn :=
  ⟨[⟨[⟨10, Kind.StrongRetain, [x]⟩,
      ⟨11, Kind.UnsafeGuaranteed, [x]⟩,
      ⟨12, Kind.TupleExtract 0, [11]⟩,
      ⟨13, Kind.TupleExtract 1, [11]⟩,
      ⟨14, Kind.Apply, [12]⟩,
      ⟨15, Kind.UnsafeGuaranteedEnd, [13]⟩,
      ⟨16, Kind.StrongRelease, [x]⟩], []⟩]⟩

/-- The expected residue of a fully collapsed guarantee region: just the
call, now applied directly to `x`. -/
def scenarioACollapsed (x : Nat) : Fn :=
  ⟨[⟨[⟨14, Kind.Apply, [x]⟩], []⟩]⟩

/-- Scenario B: scenario A with an unrelated side-effecting call on `y`
inserted between the increment and the begin-marker. -/
def scenarioB (x y : Nat) : Fn :=
  ⟨[⟨[⟨10, Kind.StrongRetain, [x]⟩,
      ⟨17, Kind.Apply, [y]⟩,
      ⟨11, Kind.UnsafeGuaranteed, [x]⟩,
      ⟨12, Kind.TupleExtract 0, [11]⟩,
      ⟨13, Kind.TupleExtract 1, [11]⟩,
      ⟨14, Kind.Apply, [12]⟩,
      ⟨15, Kind.UnsafeGuaranteedEnd, [13]⟩,
      ⟨16, Kind.StrongRelease, [x]⟩], []⟩]⟩

/-- Scenario C: the end-marker sits on one arm of a conditional branch, so
it does not post-dominate the begin-marker (block 0 branches to blocks 1
and 2, both falling through to the exit block 3; the end-marker and the
decrement live only in block 1). -/
def scenarioC (x : Nat) : Fn :=
  ⟨[⟨[⟨10, Kind.StrongRetain, [x]⟩,
      ⟨11, Kind.UnsafeGuaranteed, [x]⟩,
      ⟨12, Kind.TupleExtract 0, [11]⟩,
      ⟨13, Kind.TupleExtract 1, [11]⟩,
      ⟨14, Kind.Apply, [12]⟩,
      ⟨17, Kind.Other false, []⟩], [1, 2]⟩,
    ⟨[⟨15, Kind.UnsafeGuaranteedEnd, [13]⟩,
      ⟨16, Kind.StrongRelease, [x]⟩,
      ⟨18, Kind.Other false, []⟩], [3]⟩,
    ⟨[⟨19, Kind.Other false, []⟩], [3]⟩,
    ⟨[⟨20, Kind.Other false, []⟩], []⟩]⟩

/-- Scenario D as the spec words it: scenario A with a fully nested
`increment(x); decrement(x)` (operand `x` itself) inserted between the
begin-marker and the end-marker. -/
def scenarioD (x : Nat) : Fn :=
  ⟨[⟨[⟨10, Kind.StrongRetain, [x]⟩,
      ⟨11, Kind.UnsafeGuaranteed, [x]⟩,
      ⟨12, Kind.TupleExtract 0, [11]⟩,
      ⟨13, Kind.TupleExtract 1, [11]⟩,
      ⟨24, Kind.StrongRetain, [x]⟩,
      ⟨25, Kind.StrongRelease, [x]⟩,
      ⟨14, Kind.Apply, [12]⟩,
      ⟨15, Kind.UnsafeGuaranteedEnd, [13]⟩,
      ⟨16, Kind.StrongRelease, [x]⟩], []⟩]⟩

/-- An identity-root oracle that, like the real RC-identity analysis on
this pattern, strips the value extraction (value 12) back to the
begin-marker's own result (value 11). -/
def rootStrip (v : Nat) : Nat := if v = 12 then 11 else v

/-- Scenario D amended: the nested pair retains and releases the guaranteed
value-result (value 12), whose identity root is the begin-marker's result. -/
def scenarioDG (x : Nat) : Fn :=
  ⟨[⟨[⟨10, Kind.StrongRetain, [x]⟩,
      ⟨11, Kind.UnsafeGuaranteed, [x]⟩,
      ⟨12, Kind.TupleExtract 0, [11]⟩,
      ⟨13, Kind.TupleExtract 1, [11]⟩,
      ⟨24, Kind.StrongRetain, [12]⟩,
      ⟨25, Kind.StrongRelease, [12]⟩,
      ⟨14, Kind.Apply, [12]⟩,
      ⟨15, Kind.UnsafeGuaranteedEnd, [13]⟩,
      ⟨16, Kind.StrongRelease, [x]⟩], []⟩]⟩

/-- Scenario E: the begin-marker's token has two distinct end-marker
consumers. -/
def scenarioE (x : Nat) : Fn :=
  ⟨[⟨[⟨10, Kind.StrongRetain, [x]⟩,
      ⟨11, Kind.UnsafeGuaranteed, [x]⟩,
      ⟨12, Kind.TupleExtract 0, [11]⟩,
      ⟨13, Kind.TupleExtract 1, [11]⟩,
      ⟨14, Kind.Apply, [12]⟩,
      ⟨15, Kind.UnsafeGuaranteedEnd, [13]⟩,
      ⟨17, Kind.UnsafeGuaranteedEnd, [13]⟩,
      ⟨16, Kind.StrongRelease, [x]⟩], []⟩]⟩

/-- Scenario G: scenario A with the end-marker replaced by an ordinary call
consuming the token, so the token has exactly one consumer but zero
end-guarantee consumers. -/
def scenarioG (x : Nat) : Fn :=
  ⟨[⟨[⟨10, Kind.StrongRetain, [x]⟩,
      ⟨11, Kind.UnsafeGuaranteed, [x]⟩,
      ⟨12, Kind.TupleExtract 0, [11]⟩,
      ⟨13, Kind.TupleExtract 1, [11]⟩,
      ⟨14, Kind.Apply, [12]⟩,
      ⟨18, Kind.Apply, [13]⟩,
      ⟨16, Kind.StrongRelease, [x]⟩], []⟩]⟩

/-- Specification-side view for C5: the end-guarantee intrinsics among the
consumers of a token. -/
def endConsumersOf (f : Fn) (tok : Nat) : List Inst :=
  (usersOf f tok).filter (fun c =>
    if c.kind = Kind.UnsafeGuaranteedEnd then true else false)

/-- Scenario F: scenario A split across two blocks, with the end-marker and
the decrement in the (post-dominating) second block, and a nested pair of
the guaranteed value left inside the first block. -/
def scenarioF (x : Nat) : Fn :=
  ⟨[⟨[⟨10, Kind.StrongRetain, [x]⟩,
      ⟨11, Kind.UnsafeGuaranteed, [x]⟩,
      ⟨12, Kind.TupleExtract 0, [11]⟩,
      ⟨13, Kind.TupleExtract 1, [11]⟩,
      ⟨14, Kind.Apply, [12]⟩,
      ⟨19, Kind.StrongRetain, [12]⟩,
      ⟨20, Kind.StrongRelease, [12]⟩,
      ⟨17, Kind.Other false, []⟩], [1]⟩,
    ⟨[⟨15, Kind.UnsafeGuaranteedEnd, [13]⟩,
      ⟨16, Kind.StrongRelease, [x]⟩,
      ⟨18, Kind.Other false, []⟩], []⟩]⟩

/-- Expected result of scenario F: the outer pair, markers and extractions
are gone and uses are rewritten to `x`, but the nested pair survives
because the pruning step refuses to run across blocks. -/
def scenarioFResult (x : Nat) : Fn :=
  ⟨[⟨[⟨14, Kind.Apply, [x]⟩,
      ⟨19, Kind.StrongRetain, [x]⟩,
      ⟨20, Kind.StrongRelease, [x]⟩,
      ⟨17, Kind.Other false, []⟩], [1]⟩,
    ⟨[⟨18, Kind.Other false, []⟩], []⟩]⟩

/-- Scenario H: scenario A with an unrelated call before the increment, so
that the increment is not the first instruction of its block. -/
def scenarioH (x y : Nat) : Fn :=
  ⟨[⟨[⟨9, Kind.Apply, [y]⟩,
      ⟨10, Kind.StrongRetain, [x]⟩,
      ⟨11, Kind.UnsafeGuaranteed, [x]⟩,
      ⟨12, Kind.TupleExtract 0, [11]⟩,
      ⟨13, Kind.TupleExtract 1, [11]⟩,
      ⟨14, Kind.Apply, [12]⟩,
      ⟨15, Kind.UnsafeGuaranteedEnd, [13]⟩,
      ⟨16, Kind.StrongRelease, [x]⟩], []⟩]⟩

/-- An identity-root oracle for the two-region function below: the second
region's value extraction (value 22) roots at its begin-marker (value 21). -/
def rootTwoRegions (v : Nat) : Nat := if v = 22 then 21 else v

/-- A function with two guarantee regions in one block.  The first region's
decrement (id 29) sits at the very end, hidden from the first region's
decrement search behind the second region's instructions; the pass rewrites
the second region, and its scan-resumption point lies after the first
begin-marker, so the first region is only recognized on a later run. -/
def fnTwoRegions : Fn :=
  ⟨[⟨[⟨10, Kind.StrongRetain, [1]⟩,
      ⟨11, Kind.UnsafeGuaranteed, [1]⟩,
      ⟨12, Kind.TupleExtract 0, [11]⟩,
      ⟨13, Kind.TupleExtract 1, [11]⟩,
      ⟨14, Kind.Apply, [12]⟩,
      ⟨15, Kind.UnsafeGuaranteedEnd, [13]⟩,
      ⟨20, Kind.StrongRetain, [2]⟩,
      ⟨21, Kind.UnsafeGuaranteed, [2]⟩,
      ⟨22, Kind.TupleExtract 0, [21]⟩,
      ⟨23, Kind.TupleExtract 1, [21]⟩,
      ⟨24, Kind.StrongRetain, [22]⟩,
      ⟨25, Kind.StrongRelease, [22]⟩,
      ⟨27, Kind.UnsafeGuaranteedEnd, [23]⟩,
      ⟨28, Kind.StrongRelease, [2]⟩,
      ⟨29, Kind.StrongRelease, [1]⟩], []⟩]⟩

/-! Helper lemmas shared by the claim theorems. -/

/-- Lookup after an overwriting insertion behaves like a pointwise update. -/
theorem lookupRoot_updateMap (m : List (Nat × Nat)) (k v r : Nat) :
    lookupRoot (updateMap m k v) r = if k = r then some v else lookupRoot m r := by
  induction m with
  | nil => simp [updateMap, lookupRoot]
  | cons kv m ih =>
    simp only [updateMap]
    by_cases h1 : kv.1 = k
    · by_cases h2 : k = r <;> simp [lookupRoot, h1, h2]
    · rw [if_neg h1]
      simp only [lookupRoot, ih]
      by_cases h2 : kv.1 = r
      · have h3 : ¬ k = r := fun hk => h1 (by rw [h2, hk])
        simp [h2, h3]
      · simp [h2]

/-- Once the scan has recorded a change, the changed flag stays set. -/
theorem scanList_changed_stays (root : Nat → Nat) :
    ∀ (fuel : Nat) (f : Fn) (b i : Nat) (m : List (Nat × Nat)),
      (scanList root fuel f b i m true).2 = true := by
  intro fuel
  induction fuel with
  | zero => intro f b i m; rfl
  | succ n ih =>
    intro f b i m
    simp only [scanList]
    split
    · rfl
    · split
      · exact ih _ _ _ _
      · split
        · split
          · exact ih _ _ _ _
          · exact ih _ _ _ _
        · exact ih _ _ _ _

/-- A block scan that reports no change also made none: it returns the
function it was given, and was passed an unset changed flag. -/
theorem scanList_result_of_false (root : Nat → Nat) :
    ∀ (fuel : Nat) (f : Fn) (b i : Nat) (m : List (Nat × Nat)) (c : Bool) (g : Fn),
      scanList root fuel f b i m c = (g, false) → g = f ∧ c = false := by
  intro fuel
  induction fuel with
  | zero =>
    intro f b i m c g h
    simp only [scanList, Prod.mk.injEq] at h
    exact ⟨h.1.symm, h.2⟩
  | succ n ih =>
    intro f b i m c g h
    simp only [scanList] at h
    split at h
    · simp only [Prod.mk.injEq] at h
      exact ⟨h.1.symm, h.2⟩
    · split at h
      · exact ih _ _ _ _ _ _ h
      · split at h
        · split at h
          · exact ih _ _ _ _ _ _ h
          · exfalso
            have hc := congrArg Prod.snd h
            rw [scanList_changed_stays] at hc
            exact Bool.noConfusion hc
        · exact ih _ _ _ _ _ _ h

/-- A whole-function run that reports no change returns the function it was
given, with the changed flag it inherited unset. -/
theorem runBlocks_result_of_false (root : Nat → Nat) (fuel : Nat) :
    ∀ (n : Nat) (f : Fn) (b : Nat) (c : Bool) (g : Fn),
      runBlocks root fuel n f b c = (g, false) → g = f ∧ c = false := by
  intro n
  induction n with
  | zero =>
    intro f b c g h
    simp only [runBlocks, Prod.mk.injEq] at h
    exact ⟨h.1.symm, h.2⟩
  | succ k ih =>
    intro f b c g h
    simp only [runBlocks] at h
    rcases hp : scanList root fuel f b 0 [] c with ⟨f1, c1⟩
    rw [hp] at h
    obtain ⟨h1, h2⟩ := ih f1 (b + 1) c1 g h
    subst h2
    obtain ⟨h3, h4⟩ := scanList_result_of_false root fuel f b 0 [] c f1 hp
    exact ⟨h1.trans h3, h4⟩

/-- The forward walk of lines 138-144 never passes a disqualifying
instruction: if some index at or beyond the start and before `iCur` holds
an instruction that is not an increment, has side effects and is not a
debug reference, the walk stops at or before that index. -/
theorem walkIdx_stops_before (insts : List Inst) (iCur : Nat) :
    ∀ (fuel j jd : Nat) (c : Inst), j ≤ jd → jd < iCur →
      insts.get? jd = some c → isIncrement c = false →
      c.mayHaveSideEffects = true → isDebugValue c = false →
      walkIdx insts iCur fuel j ≤ jd := by
  intro fuel
  induction fuel with
  | zero => intro j jd c h1 _ _ _ _ _; exact h1
  | succ n ih =>
    intro j jd c h1 h2 h3 h4 h5 h6
    simp only [walkIdx]
    cases hj : insts.get? j with
    | none => exact h1
    | some cj =>
      have hji : ¬ j = iCur := by omega
      dsimp only
      rw [if_neg hji]
      by_cases hq : isIncrement cj = true ∨ cj.mayHaveSideEffects = false ∨
          isDebugValue cj = true
      · rw [if_pos hq]
        rcases Nat.lt_or_ge j jd with hlt | hge
        · exact ih (j + 1) jd c hlt h2 h3 h4 h5 h6
        · have hjd : j = jd := Nat.le_antisymm h1 hge
          subst hjd
          rw [hj] at h3
          cases h3
          rcases hq with hq | hq | hq
          · rw [h4] at hq; cases hq
          · rw [h5] at hq; cases hq
          · rw [h6] at hq; cases hq
      · rw [if_neg hq]
        exact h1

/-! Claim theorems. -/

/-- C1: on a function that is a single block of the form `increment(x);
G = begin(x)` with its two extraction results, a call of the value-result,
`end(token)` and `decrement(x)` — where the end-marker trivially
post-dominates the begin-marker — the pass erases the increment, the
begin-marker and both extractions, the end-marker and the decrement,
rewrites the call to use the original operand `x` directly, leaves only
the call, and reports a change.  The operand `x` (any value distinct from
the region's instruction labels) and the identity-root oracle are
arbitrary. -/
theorem c1_scenarioA_collapses (root : Nat → Nat) (x : Nat)
    (h10 : x ≠ 10) (h11 : x ≠ 11) (h12 : x ≠ 12) (h13 : x ≠ 13)
    (h14 : x ≠ 14) (h15 : x ≠ 15) (h16 : x ≠ 16) :
    removeGuaranteedRetainReleasePairs root (scenarioA x) =
      (scenarioACollapsed x, true) := by
  have hfu : passFuel (scenarioA x) = 81 := rfl
  have hbl : (scenarioA x).blocks.length = 1 := rfl
  rw [removeGuaranteedRetainReleasePairs, hfu, hbl]
  simp [allInsts, scenarioA, scenarioACollapsed, runBlocks, scanList, instsAt,
    trackRetain, isIncrement, opd0, findMatch, matchMarkers, lookupRoot,
    idIndexIn, walkIdx, getSingleUnsafeGuaranteedValueResult,
    getUnsafeGuaranteedEndUser, usersOf, usesValue,
    findReleaseToMatchUnsafeGuaranteedValue, findReleaseScan, findInstPos,
    findInstPosAux, properlyPostDominates, applyTransform,
    tryRemoveRetainReleasePairsBetween, nestedLoop, nestedStep, eraseInsts,
    eraseInst, deleteAllDebugUses, rauw, resumeIndex, isInstOf,
    definingInstruction, isDecrement, isDebugValue, isApplyLike,
    Inst.mayHaveSideEffects, updateMap, h10, h11, h12, h13, h14, h15, h16]

/-- Witness for C1 at the concrete operand 1 and the identity oracle. -/
theorem c1_scenarioA_collapses_witness :
    (1 : Nat) ≠ 10 ∧
      removeGuaranteedRetainReleasePairs (fun v => v) (scenarioA 1) =
        (scenarioACollapsed 1, true) :=
  ⟨by decide,
   c1_scenarioA_collapses (fun v => v) 1 (by decide) (by decide) (by decide)
     (by decide) (by decide) (by decide) (by decide)⟩

/-- C7: at every scan position — that is, after folding the tracker step
over any prefix of a block's instructions — the retain-tracker mapping
sends each identity root to the most recent increment-operation for that
root seen so far: every increment overwrites the prior entry for its
operand's root, and no non-increment instruction removes or clears an
entry (a root with no recorded increment falls through to the initial
mapping unchanged). -/
theorem c7_retain_tracker_most_recent (root : Nat → Nat) (insts : List Inst)
    (m : List (Nat × Nat)) (r : Nat) :
    lookupRoot (List.foldl (trackRetain root) m insts) r =
      match lastIncrFor root r insts with
      | some i => some i
      | none => lookupRoot m r := by
  induction insts generalizing m with
  | nil => simp [lastIncrFor]
  | cons c cs ih =>
    simp only [List.foldl_cons, lastIncrFor]
    rw [ih]
    by_cases hI : isIncrement c = true
    · by_cases hr : root (opd0 c) = r
      · cases h : lastIncrFor root r cs <;>
          simp [h, trackRetain, hI, hr, lookupRoot_updateMap]
      · cases h : lastIncrFor root r cs <;>
          simp [h, trackRetain, hI, hr, lookupRoot_updateMap]
    · have hI2 : isIncrement c = false := by
        cases hx : isIncrement c
        · rfl
        · exact absurd hx hI
      cases h : lastIncrFor root r cs <;> simp [h, trackRetain, hI2]

/-- Counterexample to C2: in Scenario D as the claim words it — scenario A
with a fully nested `increment(x); decrement(x)` (on the operand `x`
itself, identity oracle) between the begin- and end-markers — the pass
removes the outer pair but leaves the nested pair in place: the nested
retain's root is `x`, which is not defined by the begin-marker, so the
code's candidate test (root's defining instruction equals the begin-marker,
lines 66-68) rejects it even though it equals `root(x)` as the claim
demands. -/
theorem c2_nested_root_claim_counterexample :
    removeGuaranteedRetainReleasePairs (fun v => v) (scenarioD 1) =
        (⟨[⟨[⟨24, Kind.StrongRetain, [1]⟩,
             ⟨25, Kind.StrongRelease, [1]⟩,
             ⟨14, Kind.Apply, [1]⟩], []⟩]⟩, true) ∧
      isInstOf (removeGuaranteedRetainReleasePairs (fun v => v)
          (scenarioD 1)).1 24 = true ∧
      isInstOf (removeGuaranteedRetainReleasePairs (fun v => v)
          (scenarioD 1)).1 25 = true := by
  decide

/-- C2 amended: during the nested-pair pruning, any increment-operation
other than the outer one whose operand's identity root is *defined by the
begin-marker itself* (not merely equal to `root(x)`) becomes the single
nested candidate, replacing any prior one; a subsequent decrement-operation
other than the outer one whose root is likewise defined by the begin-marker,
seen while a candidate is set with no intervening disqualifying
side-effecting instruction, queues both for deletion.  In particular, in
scenario A extended with a fully nested `increment; decrement` of the
guaranteed value-result (rooted at the begin-marker), both the outer and
the nested pair are removed. -/
theorem c2_nested_candidate_amended :
    (∀ (root : Nat → Nat) (f : Fn) (gId retainId releaseId : Nat)
        (cand : Option Nat) (dels : List Nat) (cur : Inst),
      ¬ cur.id = retainId → isIncrement cur = true →
      definingInstruction f (root (opd0 cur)) = some gId →
      nestedStep root f gId retainId releaseId cand dels cur =
        (some cur.id, dels)) ∧
    (∀ (root : Nat → Nat) (f : Fn) (gId retainId releaseId c0 : Nat)
        (dels : List Nat) (cur : Inst),
      isIncrement cur = false → cur.mayHaveSideEffects = true →
      isDebugValue cur = false → isApplyLike cur = false →
      ¬ cur.id = releaseId → isDecrement cur = true →
      definingInstruction f (root (opd0 cur)) = some gId →
      nestedStep root f gId retainId releaseId (some c0) dels cur =
        (none, dels ++ [c0, cur.id])) ∧
    (∀ x : Nat, x ≠ 11 → x ≠ 12 → x ≠ 13 →
      removeGuaranteedRetainReleasePairs rootStrip (scenarioDG x) =
        (scenarioACollapsed x, true)) := by
  refine ⟨?_, ?_, ?_⟩
  · intro root f gId retainId releaseId cand dels cur h1 h2 h3
    simp [nestedStep, h1, h2, h3]
  · intro root f gId retainId releaseId c0 dels cur h1 h2 h3 h4 h5 h6 h7
    simp [nestedStep, h1, h2, h3, h4, h5, h6, h7]
  · intro x h11 h12 h13
    have hfu : passFuel (scenarioDG x) = 121 := rfl
    have hbl : (scenarioDG x).blocks.length = 1 := rfl
    rw [removeGuaranteedRetainReleasePairs, hfu, hbl]
    simp [allInsts, scenarioDG, scenarioACollapsed, rootStrip, runBlocks,
      scanList, instsAt, trackRetain, isIncrement, opd0, findMatch,
      matchMarkers, lookupRoot, idIndexIn, walkIdx,
      getSingleUnsafeGuaranteedValueResult, getUnsafeGuaranteedEndUser,
      usersOf, usesValue, findReleaseToMatchUnsafeGuaranteedValue,
      findReleaseScan, findInstPos, findInstPosAux, properlyPostDominates,
      applyTransform, tryRemoveRetainReleasePairsBetween, nestedLoop,
      nestedStep, eraseInsts, eraseInst, deleteAllDebugUses, rauw,
      resumeIndex, isInstOf, definingInstruction, isDecrement, isDebugValue,
      isApplyLike, Inst.mayHaveSideEffects, updateMap, h11, h12, h13]

/-- Witness for the amended C2: the nested retain of the guaranteed value
in scenario D amended (operand 1) becomes the candidate. -/
theorem c2_nested_candidate_amended_witness :
    ¬ (24 : Nat) = 10 ∧
      nestedStep rootStrip (scenarioDG 1) 11 10 16 none []
          ⟨24, Kind.StrongRetain, [12]⟩ = (some 24, []) :=
  ⟨by decide,
   c2_nested_candidate_amended.1 rootStrip (scenarioDG 1) 11 10 16 none []
     ⟨24, Kind.StrongRetain, [12]⟩ (by decide) (by decide) (by decide)⟩

/-- C3: a candidate that passes the marker-matching stage is transformed
only if the matched end-marker properly post-dominates the begin-marker:
whenever the post-dominance check fails, the candidate check returns no
match (so the candidate is skipped); and in scenario C, where the
end-marker sits on a conditional branch that does not cover all paths to
exit, the pass leaves the whole function unchanged and reports no
change. -/
theorem c3_postdominance_gate :
    (∀ (root : Nat → Nat) (f : Fn) (insts : List Inst) (i : Nat) (cur : Inst)
        (m : List (Nat × Nat)) (rIdx r v t e : Nat),
      matchMarkers root f insts i cur m = some (rIdx, r, v, t, e) →
      properlyPostDominates f e cur.id = false →
      findMatch root f insts i cur m = none) ∧
    (∀ x : Nat, x ≠ 11 → x ≠ 12 → x ≠ 13 →
      removeGuaranteedRetainReleasePairs (fun v => v) (scenarioC x) =
        (scenarioC x, false)) := by
  constructor
  · intro root f insts i cur m rIdx r v t e hm hpd
    simp [findMatch, hm, hpd]
  · intro x h11 h12 h13
    have hpd : properlyPostDominates (scenarioC x) 15 11 = false := rfl
    have hfu : passFuel (scenarioC x) = 169 := rfl
    have hbl : (scenarioC x).blocks.length = 4 := rfl
    simp only [scenarioC] at hpd
    rw [removeGuaranteedRetainReleasePairs, hfu, hbl]
    simp [runBlocks, scanList, instsAt, trackRetain, isIncrement, opd0,
      findMatch, matchMarkers, lookupRoot, idIndexIn, walkIdx,
      getSingleUnsafeGuaranteedValueResult, getUnsafeGuaranteedEndUser,
      usersOf, usesValue, allInsts, scenarioC, hpd, isDecrement, isDebugValue,
      isApplyLike, Inst.mayHaveSideEffects, updateMap, h11, h12, h13]

/-- Witness for C3: in scenario C the marker matching succeeds but the
candidate check reports no match because the end-marker does not
post-dominate the begin-marker. -/
theorem c3_postdominance_gate_witness :
    matchMarkers (fun v => v) (scenarioC 1) (instsAt (scenarioC 1) 0) 1
        ⟨11, Kind.UnsafeGuaranteed, [1]⟩ [(1, 10)] = some (0, 10, 12, 13, 15) ∧
      findMatch (fun v => v) (scenarioC 1) (instsAt (scenarioC 1) 0) 1
        ⟨11, Kind.UnsafeGuaranteed, [1]⟩ [(1, 10)] = none :=
  ⟨by decide,
   c3_postdominance_gate.1 (fun v => v) (scenarioC 1) (instsAt (scenarioC 1) 0)
     1 ⟨11, Kind.UnsafeGuaranteed, [1]⟩ [(1, 10)] 0 10 12 13 15 (by decide)
     (by decide)⟩

/-- C4: the forward walk from the tracked increment to the begin-marker
fails — and the candidate produces no match — whenever any instruction
strictly between them is neither an increment-operation, nor side-effect
free, nor a debug reference; in particular an unrelated side-effecting
call between `increment(x)` and `begin(x)` (scenario B) prevents any
transformation and leaves the IR unchanged, for every operand, unrelated
value and identity oracle. -/
theorem c4_disqualifying_walk :
    (∀ (root : Nat → Nat) (f : Fn) (insts : List Inst) (i : Nat) (cur : Inst)
        (m : List (Nat × Nat)) (r rIdx jd : Nat) (cj : Inst),
      lookupRoot m (root (opd0 cur)) = some r →
      idIndexIn insts r = some rIdx →
      rIdx < jd → jd < i → insts.get? jd = some cj →
      isIncrement cj = false → cj.mayHaveSideEffects = true →
      isDebugValue cj = false →
      matchMarkers root f insts i cur m = none) ∧
    (∀ (root : Nat → Nat) (x y : Nat),
      removeGuaranteedRetainReleasePairs root (scenarioB x y) =
        (scenarioB x y, false)) := by
  constructor
  · intro root f insts i cur m r rIdx jd cj hl hi hlt hlti hget hinc hse hdb
    have hw : walkIdx insts i (insts.length + 1) (rIdx + 1) ≤ jd :=
      walkIdx_stops_before insts i (insts.length + 1) (rIdx + 1) jd cj hlt
        hlti hget hinc hse hdb
    have hne : ¬ walkIdx insts i (insts.length + 1) (rIdx + 1) = i := by omega
    simp [matchMarkers, hl, hi, hne]
  · intro root x y
    have hfu : passFuel (scenarioB x y) = 100 := rfl
    have hbl : (scenarioB x y).blocks.length = 1 := rfl
    rw [removeGuaranteedRetainReleasePairs, hfu, hbl]
    simp [allInsts, scenarioB, runBlocks, scanList, instsAt, trackRetain,
      isIncrement, opd0, findMatch, matchMarkers, lookupRoot, idIndexIn,
      walkIdx, getSingleUnsafeGuaranteedValueResult,
      getUnsafeGuaranteedEndUser, usersOf, usesValue,
      findReleaseToMatchUnsafeGuaranteedValue, findReleaseScan, findInstPos,
      findInstPosAux, properlyPostDominates, applyTransform,
      tryRemoveRetainReleasePairsBetween, nestedLoop, nestedStep, eraseInsts,
      eraseInst, deleteAllDebugUses, rauw, resumeIndex, isInstOf,
      definingInstruction, isDecrement, isDebugValue, isApplyLike,
      Inst.mayHaveSideEffects, updateMap]

/-- Witness for C4: in scenario B the unrelated call at index 1 sits
strictly between the tracked increment (index 0) and the begin-marker
(index 2), and the marker matching indeed fails there. -/
theorem c4_disqualifying_walk_witness :
    lookupRoot [((1 : Nat), (10 : Nat))] 1 = some 10 ∧
      matchMarkers (fun v => v) (scenarioB 1 2) (instsAt (scenarioB 1 2) 0) 2
        ⟨11, Kind.UnsafeGuaranteed, [1]⟩ [(1, 10)] = none :=
  ⟨by decide,
   c4_disqualifying_walk.1 (fun v => v) (scenarioB 1 2)
     (instsAt (scenarioB 1 2) 0) 2 ⟨11, Kind.UnsafeGuaranteed, [1]⟩ [(1, 10)]
     10 0 1 ⟨17, Kind.Apply, [2]⟩ (by decide) (by decide) (by decide)
     (by decide) (by decide) (by decide) (by decide) (by decide)⟩

/-- C5: a begin-marker whose token is consumed by zero end-guarantee
intrinsics, or by two or more distinct end-guarantee intrinsics, yields no
end-marker and hence no transformation.  First conjunct: the end-user
resolution returns none whenever the number of end-guarantee consumers of
the token differs from one — this covers a token with no consumer at all,
a token whose only consumer is not an end-guarantee intrinsic, and a token
with several end-guarantee consumers.  Second conjunct: it also returns
none whenever the total consumer count differs from one.  Third and fourth
conjuncts: in scenario E (two end-marker consumers) and in scenario G
(a single consumer that is not an end-marker, hence zero end-guarantee
consumers) the whole pass leaves the IR unchanged and reports no
change. -/
theorem c5_ambiguous_end_user :
    (∀ (f : Fn) (tok : Nat), ¬ (endConsumersOf f tok).length = 1 →
      getUnsafeGuaranteedEndUser f tok = none) ∧
    (∀ (f : Fn) (tok : Nat), ¬ (usersOf f tok).length = 1 →
      getUnsafeGuaranteedEndUser f tok = none) ∧
    (∀ x : Nat, x ≠ 11 → x ≠ 13 →
      removeGuaranteedRetainReleasePairs (fun v => v) (scenarioE x) =
        (scenarioE x, false)) ∧
    (∀ x : Nat, x ≠ 11 → x ≠ 13 →
      removeGuaranteedRetainReleasePairs (fun v => v) (scenarioG x) =
        (scenarioG x, false)) := by
  refine ⟨?_, ?_, ?_, ?_⟩
  · intro f tok h
    simp only [getUnsafeGuaranteedEndUser]
    cases hu : usersOf f tok with
    | nil => rfl
    | cons e rest =>
      cases rest with
      | nil =>
        by_cases he : e.kind = Kind.UnsafeGuaranteedEnd
        · exact absurd (by simp [endConsumersOf, hu, he]) h
        · simp [he]
      | cons e2 rest2 => rfl
  · intro f tok h
    simp only [getUnsafeGuaranteedEndUser]
    cases hu : usersOf f tok with
    | nil => rfl
    | cons e rest =>
      cases rest with
      | nil => exact absurd (by simp [hu]) h
      | cons e2 rest2 => rfl
  · intro x h11 h13
    have hfu : passFuel (scenarioE x) = 100 := rfl
    have hbl : (scenarioE x).blocks.length = 1 := rfl
    rw [removeGuaranteedRetainReleasePairs, hfu, hbl]
    simp [allInsts, scenarioE, runBlocks, scanList, instsAt, trackRetain,
      isIncrement, opd0, findMatch, matchMarkers, lookupRoot, idIndexIn,
      walkIdx, getSingleUnsafeGuaranteedValueResult,
      getUnsafeGuaranteedEndUser, usersOf, usesValue,
      findReleaseToMatchUnsafeGuaranteedValue, findReleaseScan, findInstPos,
      findInstPosAux, properlyPostDominates, applyTransform,
      tryRemoveRetainReleasePairsBetween, nestedLoop, nestedStep, eraseInsts,
      eraseInst, deleteAllDebugUses, rauw, resumeIndex, isInstOf,
      definingInstruction, isDecrement, isDebugValue, isApplyLike,
      Inst.mayHaveSideEffects, updateMap, h11, h13]
  · intro x h11 h13
    have hfu : passFuel (scenarioG x) = 81 := rfl
    have hbl : (scenarioG x).blocks.length = 1 := rfl
    rw [removeGuaranteedRetainReleasePairs, hfu, hbl]
    simp [allInsts, scenarioG, runBlocks, scanList, instsAt, trackRetain,
      isIncrement, opd0, findMatch, matchMarkers, lookupRoot, idIndexIn,
      walkIdx, getSingleUnsafeGuaranteedValueResult,
      getUnsafeGuaranteedEndUser, usersOf, usesValue,
      findReleaseToMatchUnsafeGuaranteedValue, findReleaseScan, findInstPos,
      findInstPosAux, properlyPostDominates, applyTransform,
      tryRemoveRetainReleasePairsBetween, nestedLoop, nestedStep, eraseInsts,
      eraseInst, deleteAllDebugUses, rauw, resumeIndex, isInstOf,
      definingInstruction, isDecrement, isDebugValue, isApplyLike,
      Inst.mayHaveSideEffects, updateMap, h11, h13]

/-- Witness for C5: in scenario E the token (value 13) has two
end-guarantee consumers, and in scenario G it has one consumer but zero
end-guarantee consumers; the end-user resolution fails in both. -/
theorem c5_ambiguous_end_user_witness :
    ¬ (endConsumersOf (scenarioE 1) 13).length = 1 ∧
      getUnsafeGuaranteedEndUser (scenarioE 1) 13 = none ∧
      ¬ (endConsumersOf (scenarioG 1) 13).length = 1 ∧
      getUnsafeGuaranteedEndUser (scenarioG 1) 13 = none :=
  ⟨by decide, c5_ambiguous_end_user.1 (scenarioE 1) 13 (by decide),
   by decide, c5_ambiguous_end_user.1 (scenarioG 1) 13 (by decide)⟩

/-- C6: a candidate begin-marker that fails any precondition check — no
tracked increment, a disqualifying intermediate instruction, unresolved
marker results, a missing or ambiguous end-marker consumer, failed
post-dominance, or no matching decrement, all of which surface as the
candidate check returning no match — causes no erasure and no use
rewriting and raises no error: the scan continues from the very next
instruction with the function bit-for-bit unchanged and the changed flag
it already had. -/
theorem c6_failed_candidate_no_mutation (root : Nat → Nat) (fuel : Nat)
    (f : Fn) (b i : Nat) (m : List (Nat × Nat)) (c : Bool) (cur : Inst)
    (hget : (instsAt f b).get? i = some cur)
    (hkind : cur.kind = Kind.UnsafeGuaranteed)
    (hfm : findMatch root f (instsAt f b) i cur m = none) :
    scanList root (fuel + 1) f b i m c = scanList root fuel f b (i + 1) m c := by
  have hinc : isIncrement cur = false := by simp [isIncrement, hkind]
  simp only [List.get?_eq_getElem?] at hget
  simp [scanList, hget, hinc, hkind, hfm]

/-- Witness for C6: in scenario B the begin-marker at index 2 fails the
walk check, and the scan step just moves to index 3 with the function
unchanged. -/
theorem c6_failed_candidate_no_mutation_witness :
    (instsAt (scenarioB 1 2) 0).get? 2 =
        some ⟨11, Kind.UnsafeGuaranteed, [1]⟩ ∧
      scanList (fun v => v) (49 + 1) (scenarioB 1 2) 0 2 [(1, 10)] false =
        scanList (fun v => v) 49 (scenarioB 1 2) 0 3 [(1, 10)] false :=
  ⟨by decide,
   c6_failed_candidate_no_mutation (fun v => v) 49 (scenarioB 1 2) 0 2
     [(1, 10)] false ⟨11, Kind.UnsafeGuaranteed, [1]⟩ (by decide) (by decide)
     (by decide)⟩

/-- C8: after a successful rewrite the scan resumes at the resumption
index: the mutation step hands the scan the mutated function and the
resumption position, which is the block start when the erased outer
increment was the block's first instruction, and otherwise the new index
of the instruction that sat immediately before the increment (the scan
then proceeds forward from there, so nothing earlier is re-examined). -/
theorem c8_scan_resumption (root : Nat → Nat) (fuel : Nat) (f : Fn)
    (b i : Nat) (m : List (Nat × Nat)) (c : Bool) (cur : Inst)
    (rIdx retainId v t e rel : Nat)
    (hget : (instsAt f b).get? i = some cur)
    (hkind : cur.kind = Kind.UnsafeGuaranteed)
    (hfm : findMatch root f (instsAt f b) i cur m =
      some (rIdx, retainId, v, t, e, rel)) :
    (scanList root (fuel + 1) f b i m c =
      scanList root fuel
        (applyTransform root f (instsAt f b) cur rIdx retainId v t e rel).1 b
        (resumeIndex
          (applyTransform root f (instsAt f b) cur rIdx retainId v t e rel).1
          b
          (applyTransform root f (instsAt f b) cur rIdx retainId v t e rel).2)
        m true) ∧
    (rIdx = 0 →
      (applyTransform root f (instsAt f b) cur rIdx retainId v t e rel).2 =
          none ∧
        resumeIndex
          (applyTransform root f (instsAt f b) cur rIdx retainId v t e rel).1
          b none = 0) ∧
    (∀ (k : Nat) (p : Inst), rIdx = k + 1 → (instsAt f b).get? k = some p →
      (applyTransform root f (instsAt f b) cur rIdx retainId v t e rel).2 =
        some p.id) ∧
    (∀ (pid q : Nat),
      idIndexIn
          (instsAt
            (applyTransform root f (instsAt f b) cur rIdx retainId v t e
              rel).1 b) pid = some q →
      resumeIndex
        (applyTransform root f (instsAt f b) cur rIdx retainId v t e rel).1 b
        (some pid) = q) := by
  have hinc : isIncrement cur = false := by simp [isIncrement, hkind]
  have hget' := hget
  simp only [List.get?_eq_getElem?] at hget'
  refine ⟨?_, ?_, ?_, ?_⟩
  · simp [scanList, hget', hinc, hkind, hfm]
  · intro h0
    subst h0
    constructor
    · simp [applyTransform]
    · simp [resumeIndex]
  · intro k p hk hp
    subst hk
    simp only [List.get?_eq_getElem?] at hp
    simp [applyTransform, hp]
  · intro pid q hq
    simp [resumeIndex, hq]

/-- Witness for C8 at scenario H, where the erased increment sits at index
1 so the scan resumes at the unrelated call that was before it. -/
theorem c8_scan_resumption_witness :
    findMatch (fun v => v) (scenarioH 1 2) (instsAt (scenarioH 1 2) 0) 2
        ⟨11, Kind.UnsafeGuaranteed, [1]⟩ [(1, 10)] =
        some (1, 10, 12, 13, 15, 16) ∧
      scanList (fun v => v) (60 + 1) (scenarioH 1 2) 0 2 [(1, 10)] false =
        scanList (fun v => v) 60
          (applyTransform (fun v => v) (scenarioH 1 2)
            (instsAt (scenarioH 1 2) 0) ⟨11, Kind.UnsafeGuaranteed, [1]⟩ 1 10
            12 13 15 16).1 0
          (resumeIndex
            (applyTransform (fun v => v) (scenarioH 1 2)
              (instsAt (scenarioH 1 2) 0) ⟨11, Kind.UnsafeGuaranteed, [1]⟩ 1
              10 12 13 15 16).1 0
            (applyTransform (fun v => v) (scenarioH 1 2)
              (instsAt (scenarioH 1 2) 0) ⟨11, Kind.UnsafeGuaranteed, [1]⟩ 1
              10 12 13 15 16).2)
          [(1, 10)] true :=
  ⟨by decide,
   (c8_scan_resumption (fun v => v) 60 (scenarioH 1 2) 0 2 [(1, 10)] false
     ⟨11, Kind.UnsafeGuaranteed, [1]⟩ 1 10 12 13 15 16 (by decide) (by decide)
     (by decide)).1⟩

/-- Counterexample to C9 (idempotence): on `fnTwoRegions` the first run
rewrites only the second guarantee region; erasing that region unblocks
the first region's decrement search, but the scan resumed after the first
begin-marker, so the first region is missed.  The second run then
transforms the first region: both runs report a change and the second run
alters the IR further. -/
theorem c9_idempotence_counterexample :
    (removeGuaranteedRetainReleasePairs rootTwoRegions fnTwoRegions).2 =
        true ∧
      (removeGuaranteedRetainReleasePairs rootTwoRegions
          (removeGuaranteedRetainReleasePairs rootTwoRegions
            fnTwoRegions).1).2 = true ∧
      (removeGuaranteedRetainReleasePairs rootTwoRegions
          (removeGuaranteedRetainReleasePairs rootTwoRegions
            fnTwoRegions).1).1 ≠
        (removeGuaranteedRetainReleasePairs rootTwoRegions fnTwoRegions).1 := by
  decide

/-- C9 amended: a run of the pass that reports no change is a fixed point:
it returned its input unchanged, and running the pass again on that result
again reports no change and leaves the IR identical.  (A run that does
report a change can enable further rewrites on a second run, as the
counterexample shows.) -/
theorem c9_no_change_fixpoint (root : Nat → Nat) (f g : Fn)
    (h : removeGuaranteedRetainReleasePairs root f = (g, false)) :
    g = f ∧ removeGuaranteedRetainReleasePairs root g = (g, false) := by
  rw [removeGuaranteedRetainReleasePairs] at h
  obtain ⟨h1, _⟩ :=
    runBlocks_result_of_false root (passFuel f) f.blocks.length f 0 false g h
  subst h1
  exact ⟨rfl, h⟩

/-- Witness for the amended C9: scenario B is untouched by the pass, and a
second run is also a no-change run. -/
theorem c9_no_change_fixpoint_witness :
    removeGuaranteedRetainReleasePairs (fun v => v) (scenarioB 1 2) =
        (scenarioB 1 2, false) ∧
      (scenarioB 1 2 = scenarioB 1 2 ∧
        removeGuaranteedRetainReleasePairs (fun v => v) (scenarioB 1 2) =
          (scenarioB 1 2, false)) :=
  ⟨by decide,
   c9_no_change_fixpoint (fun v => v) (scenarioB 1 2) (scenarioB 1 2)
     (by decide)⟩

/-- C10 (implicit): the nested-pair pruning deletes nothing unless the
begin-marker, the end-marker, the outer increment and the outer decrement
all lie in one basic block — whenever any of them lies elsewhere the
pruning helper returns the function unchanged — while the outer
transformation still proceeds: in scenario F (end-marker and decrement in
a second, post-dominating block) the outer pair, markers and extractions
are removed and uses rewritten, yet the nested pair inside the first block
survives. -/
theorem c10_nested_pruning_single_block :
    (∀ (root : Nat → Nat) (f : Fn) (gId retainId releaseId endId
        bg ig be ie br' ir bl il : Nat),
      findInstPos f gId = some (bg, ig) →
      findInstPos f endId = some (be, ie) →
      findInstPos f retainId = some (br', ir) →
      findInstPos f releaseId = some (bl, il) →
      ¬ (be = bg ∧ br' = bg ∧ bl = bg) →
      tryRemoveRetainReleasePairsBetween root f gId retainId releaseId
        endId = f) ∧
    (∀ x : Nat, x ≠ 11 → x ≠ 12 → x ≠ 13 →
      removeGuaranteedRetainReleasePairs rootStrip (scenarioF x) =
        (scenarioFResult x, true)) := by
  constructor
  · intro root f gId retainId releaseId endId bg ig be ie br' ir bl il hg he
      hr hl hne
    simp only [tryRemoveRetainReleasePairsBetween, hg, he, hr, hl]
    rw [if_neg hne]
  · intro x h11 h12 h13
    have hpd : properlyPostDominates (scenarioF x) 15 11 = true := rfl
    have hfu : passFuel (scenarioF x) = 169 := rfl
    have hbl2 : (scenarioF x).blocks.length = 2 := rfl
    simp only [scenarioF] at hpd
    rw [removeGuaranteedRetainReleasePairs, hfu, hbl2]
    simp [allInsts, scenarioF, scenarioFResult, rootStrip, runBlocks,
      scanList, instsAt, trackRetain, isIncrement, opd0, findMatch,
      matchMarkers, lookupRoot, idIndexIn, walkIdx,
      getSingleUnsafeGuaranteedValueResult, getUnsafeGuaranteedEndUser,
      usersOf, usesValue, findReleaseToMatchUnsafeGuaranteedValue,
      findReleaseScan, findInstPos, findInstPosAux, hpd, applyTransform,
      tryRemoveRetainReleasePairsBetween, nestedLoop, nestedStep, eraseInsts,
      eraseInst, deleteAllDebugUses, rauw, resumeIndex, isInstOf,
      definingInstruction, isDecrement, isDebugValue, isApplyLike,
      Inst.mayHaveSideEffects, updateMap, h11, h12, h13]

/-- Witness for C10: in scenario F the end-marker lives in block 1 while
the begin-marker lives in block 0, so the pruning helper is a no-op. -/
theorem c10_nested_pruning_single_block_witness :
    findInstPos (scenarioF 1) 15 = some (1, 0) ∧
      tryRemoveRetainReleasePairsBetween rootStrip (scenarioF 1) 11 10 16
          15 = scenarioF 1 :=
  ⟨by decide,
   c10_nested_pruning_single_block.1 rootStrip (scenarioF 1) 11 10 16 15 0 1
     1 0 0 0 1 1 (by decide) (by decide) (by decide) (by decide) (by decide)⟩

end UGP
